import Mathlib

/-!
Verification of the apollo-scraper-payment pipeline.

Shallow embedding of the three source files:
* `api/create-checkout-session.js` (src/unnamed/part_001): metadata codec
  (base64 encode + 450-character chunking) and the order staging store write.
* `api/stripe-webhook.js`: signature-gated webhook handler, idempotency
  ledger, order recovery (staging store, metadata fallback with chunk
  reconstruction), job trigger, notification, finalization; plus the
  scraper-side `cleanData` normalizer that is appended to the same file.
* the config endpoint (src/unnamed/part_000).

JS strings are modelled as lists of character codes (`Str`); JS dynamic
values that the webhook destructures are modelled by `JSVal`.
-/

/-- JS strings are modelled as lists of character codes. -/
abbrev Str := List Nat

/-- The character codes of the string literal true. -/
def trueLit : Str := [116, 114, 117, 101]

/-- The character codes of the string literal false. -/
def falseLit : Str := [102, 97, 108, 115, 101]

/-! ## Base64 codec (Buffer.from(url).toString(base64) and its inverse)

Symbols are the 6-bit values 0..63; 64 stands for the padding character. -/

/-- Encode a byte list into base64 symbol values (0..63, 64 = padding),
grouping bytes in threes exactly as the standard encoding does. -/
def b64Syms : List Nat → List Nat
  | [] => []
  | [a] => [a / 4, a % 4 * 16, 64, 64]
  | [a, b] => [a / 4, a % 4 * 16 + b / 16, b % 16 * 4, 64]
  | a :: b :: c :: rest =>
      a / 4 :: (a % 4 * 16 + b / 16) :: (b % 16 * 4 + c / 64) :: c % 64 :: b64Syms rest

/-- Decode a base64 symbol stream back into bytes, consuming groups of four
symbols; a padding symbol in third or fourth position ends the data. -/
def b64Unsyms : List Nat → List Nat
  | w :: x :: y :: z :: rest =>
      if y = 64 then [w * 4 + x / 16]
      else if z = 64 then [w * 4 + x / 16, x % 16 * 16 + y / 4]
      else (w * 4 + x / 16) :: (x % 16 * 16 + y / 4) :: (y % 4 * 64 + z) :: b64Unsyms rest
  | _ => []

/-- The base64 alphabet: symbol value to character code (65 = uppercase A,
97 = lowercase a, 48 = digit zero, 43 = plus, 47 = slash, 61 = equals). -/
def b64CharOfVal (v : Nat) : Nat :=
  if v < 26 then 65 + v
  else if v < 52 then 97 + (v - 26)
  else if v < 62 then 48 + (v - 52)
  else if v = 62 then 43
  else if v = 63 then 47
  else 61

/-- Character code back to base64 symbol value; `none` for characters
outside the alphabet (the decoder skips those, as Buffer.from does). -/
def b64ValOfChar (c : Nat) : Option Nat :=
  if 65 ≤ c ∧ c ≤ 90 then some (c - 65)
  else if 97 ≤ c ∧ c ≤ 122 then some (26 + (c - 97))
  else if 48 ≤ c ∧ c ≤ 57 then some (52 + (c - 48))
  else if c = 43 then some 62
  else if c = 47 then some 63
  else if c = 61 then some 64
  else none

/-- `Buffer.from(bytes).toString(base64)` : bytes to base64 text. -/
def b64EncodeStr (bs : List Nat) : Str := (b64Syms bs).map b64CharOfVal

/-- `Buffer.from(text, base64)` : base64 text back to bytes. -/
def b64DecodeStr (s : Str) : List Nat := b64Unsyms (s.filterMap b64ValOfChar)

theorem b64ValOfChar_b64CharOfVal : ∀ v < 65, b64ValOfChar (b64CharOfVal v) = some v := by
  decide

theorem b64Syms_le (bs : List Nat) (h : ∀ b ∈ bs, b < 256) :
    ∀ s ∈ b64Syms bs, s ≤ 64 := by
  match bs with
  | [] => intro s hs; simp [b64Syms] at hs
  | [a] =>
      have ha : a < 256 := h a (by simp)
      intro s hs
      simp [b64Syms] at hs
      rcases hs with h1 | h1 | h1 | h1 <;> omega
  | [a, b] =>
      have ha : a < 256 := h a (by simp)
      have hb : b < 256 := h b (by simp)
      intro s hs
      simp [b64Syms] at hs
      rcases hs with h1 | h1 | h1 | h1 <;> omega
  | a :: b :: c :: rest =>
      have ha : a < 256 := h a (by simp)
      have hb : b < 256 := h b (by simp)
      have hc : c < 256 := h c (by simp)
      have ih := b64Syms_le rest (fun x hx => h x (by simp [hx]))
      intro s hs
      simp only [b64Syms, List.mem_cons] at hs
      rcases hs with h1 | h1 | h1 | h1 | h1
      · omega
      · omega
      · omega
      · omega
      · exact ih s h1

theorem b64Unsyms_b64Syms (bs : List Nat) (h : ∀ b ∈ bs, b < 256) :
    b64Unsyms (b64Syms bs) = bs := by
  match bs with
  | [] => simp [b64Syms, b64Unsyms]
  | [a] =>
      have ha : a < 256 := h a (by simp)
      simp only [b64Syms, b64Unsyms]
      rw [if_pos (by simp)]
      simp only [List.cons.injEq]
      exact ⟨by omega, trivial⟩
  | [a, b] =>
      have ha : a < 256 := h a (by simp)
      have hb : b < 256 := h b (by simp)
      simp only [b64Syms, b64Unsyms]
      rw [if_neg (by omega), if_pos (by simp)]
      simp only [List.cons.injEq]
      refine ⟨by omega, by omega, trivial⟩
  | a :: b :: c :: rest =>
      have ha : a < 256 := h a (by simp)
      have hb : b < 256 := h b (by simp)
      have hc : c < 256 := h c (by simp)
      have ih := b64Unsyms_b64Syms rest (fun x hx => h x (by simp [hx]))
      simp only [b64Syms, b64Unsyms]
      rw [if_neg (by omega), if_neg (by omega)]
      simp only [List.cons.injEq]
      exact ⟨by omega, by omega, by omega, ih⟩

theorem filterMap_map_b64 (l : List Nat) (h : ∀ s ∈ l, s ≤ 64) :
    (l.map b64CharOfVal).filterMap b64ValOfChar = l := by
  induction l with
  | nil => simp
  | cons a rest ih =>
      have ha : a < 65 := by have := h a (by simp); omega
      simp only [List.map_cons, List.filterMap_cons,
        b64ValOfChar_b64CharOfVal a ha]
      rw [ih (fun s hs => h s (by simp [hs]))]

/-- Base64 text round-trip: decoding the encoding of any byte list
returns the original bytes. -/
theorem b64DecodeStr_b64EncodeStr (bs : List Nat) (h : ∀ b ∈ bs, b < 256) :
    b64DecodeStr (b64EncodeStr bs) = bs := by
  unfold b64DecodeStr b64EncodeStr
  rw [filterMap_map_b64 _ (b64Syms_le bs h), b64Unsyms_b64Syms bs h]

/-! ## Chunking (create-checkout-session: for i = 0; i < len; i += 450) -/

/-- Split a list into consecutive pieces of 450 elements (the last piece may
be shorter), mirroring the slice loop in the checkout endpoint. -/
def chunk450 : List α → List (List α)
  | [] => []
  | a :: rest => ((a :: rest).take 450) :: chunk450 ((a :: rest).drop 450)
termination_by l => l.length
decreasing_by simp [List.length_drop]; omega

/-- Concatenating the chunks in order restores the original list. -/
theorem chunk450_flatten (l : List α) : (chunk450 l).flatten = l := by
  match l with
  | [] => simp [chunk450]
  | a :: rest =>
      rw [chunk450]
      simp only [List.flatten_cons]
      rw [chunk450_flatten ((a :: rest).drop 450)]
      exact List.take_append_drop 450 (a :: rest)
termination_by l.length
decreasing_by simp [List.length_drop]; omega

/-- Every chunk respects the 450-character metadata field budget. -/
theorem chunk450_len (l : List α) : ∀ c ∈ chunk450 l, c.length ≤ 450 := by
  match l with
  | [] => simp [chunk450]
  | a :: rest =>
      intro c hc
      rw [chunk450] at hc
      rcases List.mem_cons.mp hc with h | h
      · subst h
        simp [List.length_take]
      · exact chunk450_len ((a :: rest).drop 450) c h
termination_by l.length
decreasing_by simp [List.length_drop]; omega

/-! ## Metadata envelope -/

/-- The Stripe checkout-session metadata fields that the pipeline reads.
A missing field is `none` (destructures to undefined in the source).
`urlChunkCount` holds the numeric content of the field (the source writes
`urlChunks.length.toString()` and reads it back with parseInt);
`urlChunk i` is the field named urlChunk followed by the index. -/
structure Metadata where
  leads : Option Str
  apolloUrl : Option Str
  email : Option Str
  cleanOutput : Option Str
  urlChunkCount : Option Nat
  urlChunk : Nat → Option Str

/-- The truncation applied to the URL before it is placed in the single
apolloUrl metadata field: over 450 characters it is cut to 450 plus a
three-dot marker. -/
def truncateUrl (url : Str) : Str :=
  if url.length > 450 then url.take 450 ++ [46, 46, 46] else url

/-- The metadata object built by the checkout endpoint for a given order:
truncated URL copy, chunked base64 of the full URL, and the chunk count. -/
def checkoutMetadata (leads : Nat) (apolloUrl : Str) (email : Str)
    (cleanOutput : Bool) : Metadata :=
  let urlChunks := chunk450 (b64EncodeStr apolloUrl)
  { leads := some ((Nat.toDigits 10 leads).map Char.toNat)
    apolloUrl := some (truncateUrl apolloUrl)
    email := some email
    cleanOutput := some (if cleanOutput then trueLit else falseLit)
    urlChunkCount := some urlChunks.length
    urlChunk := fun i => urlChunks.get? i }

/-- The webhook chunk-reassembly loop: concatenate metadata fields
urlChunk 0 .. urlChunk (n-1) in index order; `none` as soon as one is
missing (the source throws and falls back to the truncated copy). -/
def collectB64 (md : Metadata) : Nat → Option Str
  | 0 => some []
  | n + 1 =>
      match collectB64 md n, md.urlChunk n with
      | some s, some c => some (s ++ c)
      | _, _ => none

/-- The webhook URL-reconstruction step: if a chunk count is present,
reassemble the base64 text and decode it; `none` when the count is absent
or any chunk is missing. -/
def reconstructUrl (md : Metadata) : Option (List Nat) :=
  match md.urlChunkCount with
  | some n => (collectB64 md n).map b64DecodeStr
  | none => none

theorem collectB64_get? (cs : List Str) (md : Metadata)
    (hchunk : md.urlChunk = fun i => cs.get? i) :
    ∀ n ≤ cs.length, collectB64 md n = some (cs.take n).flatten := by
  intro n
  induction n with
  | zero => intro _; simp [collectB64]
  | succ m ih =>
      intro hle
      have hm : m < cs.length := by omega
      have hget : md.urlChunk m = some (cs.get ⟨m, hm⟩) := by
        rw [hchunk]
        exact List.get?_eq_get hm
      rw [collectB64, ih (by omega), hget]
      rw [List.take_succ, List.flatten_append]
      simp [List.getElem?_eq_getElem hm]

/-! ## Dynamic values and parseInt -/

/-- A JS value as the webhook destructures it: the staging store holds
numbers and booleans where the metadata holds strings, and a missing
field destructures to undefined. -/
inductive JSVal where
  | num (n : Nat)
  | str (s : Str)
  | bool (b : Bool)
  | undef
deriving DecidableEq

/-- Strict equality against the string literal true
(the source expression is cleanOutput === the true literal): false for
any non-string value, in particular for the boolean true. -/
def jsStrictEqTrue : JSVal → Bool
  | .str s => s == trueLit
  | _ => false

/-- Leading decimal digits of a character-code list; `none` when the first
character is not a digit (parseInt returning NaN). -/
def parseDigits : Str → Option Nat
  | [] => none
  | c :: rest =>
      if 48 ≤ c ∧ c ≤ 57 then
        some (parseDigitsAcc (c - 48) rest)
      else none
where
  parseDigitsAcc (acc : Nat) : Str → Nat
    | [] => acc
    | c :: rest =>
        if 48 ≤ c ∧ c ≤ 57 then parseDigitsAcc (acc * 10 + (c - 48)) rest
        else acc

/-- parseInt over a dynamic value: numbers parse to themselves, strings
through their leading digits, everything else is NaN (`none`). -/
def parseIntJS : JSVal → Option Nat
  | .num n => some n
  | .str s => parseDigits s
  | _ => none

/-! ## Stores: order staging directory and processed-session ledger -/

/-- The JSON record the checkout endpoint writes per session
(storeApolloUrl) and the webhook reads back (retrieveApolloUrl). -/
structure StoredData where
  apolloUrl : Str
  email : Str
  leads : JSVal
  cleanOutput : JSVal
deriving DecidableEq

/-- The two on-disk directories: one pending-order file per session id and
one processed-marker file per session id. -/
structure Store where
  staging : List (Str × StoredData)
  processed : List Str
deriving DecidableEq

/-- fs.existsSync on the processed-sessions marker file. -/
def isSessionProcessed (st : Store) (sessionId : Str) : Bool :=
  st.processed.contains sessionId

/-- Write the processed-sessions marker file. -/
def markSessionProcessed (st : Store) (sessionId : Str) : Store :=
  { st with processed := sessionId :: st.processed }

/-- Read the pending-order file for a session, if present. -/
def retrieveApolloUrl (st : Store) (sessionId : Str) : Option StoredData :=
  st.staging.lookup sessionId

/-- Delete the pending-order file for a session (no-op when absent). -/
def cleanupApolloUrl (st : Store) (sessionId : Str) : Store :=
  { st with staging := st.staging.filter (fun kv => kv.1 != sessionId) }

/-- Write the pending-order file for a session (storeApolloUrl in the
checkout endpoint; a rewrite shadows the previous record). -/
def storeApolloUrl (st : Store) (sessionId : Str) (d : StoredData) : Store :=
  { st with staging := (sessionId, d) :: st.staging }

/-! ## Events, effects, and the fulfillment pipeline -/

/-- A checkout session as delivered inside a verified event. -/
structure Session where
  id : Str
  metadata : Metadata

/-- The event types the webhook switch distinguishes. -/
inductive EventType where
  | checkoutSessionCompleted
  | paymentIntentSucceeded
  | paymentIntentFailed
  | otherEvent
deriving DecidableEq

/-- A verified Stripe event. -/
structure Event where
  kind : EventType
  session : Session

/-- HTTP methods as the endpoints compare them. -/
inductive Method where
  | GET
  | POST
  | OPTIONS
  | otherMethod
deriving DecidableEq

/-- An inbound webhook request: its method and the outcome of
stripe.webhooks.constructEvent over the raw body and signature header
(`none` when verification throws: bad signature, missing header,
malformed body). -/
structure WebhookRequest where
  method : Method
  verified : Option Event

/-- The process environment the webhook consults for notifications. -/
structure WebhookEnv where
  emailWebhookUrl : Option Str

/-- The payload of the one-shot Apify actor run request. -/
structure JobInvocation where
  url : Str
  totalRecords : Option Nat
  fileName : Str
  email : Str
  cleanOutput : Bool
deriving DecidableEq

/-- The payload of the email-webhook notification POST. -/
structure EmailNote where
  email : Str
  leadCount : Option Nat
  apolloUrl : Str
  fileName : Str
deriving DecidableEq

/-- One observable storage or network action of the webhook handler,
in execution order. -/
inductive Effect where
  | readLedger (sessionId : Str)
  | readStaging (sessionId : Str)
  | jobTrigger (inv : JobInvocation)
  | notify (n : EmailNote)
  | deleteStaging (sessionId : Str)
  | writeLedger (sessionId : Str)
deriving DecidableEq

/-- The job invocations contained in an effect trace. -/
def jobsOf (effs : List Effect) : List JobInvocation :=
  effs.filterMap fun e =>
    match e with
    | .jobTrigger inv => some inv
    | _ => none

/-- The notifications contained in an effect trace. -/
def notesOf (effs : List Effect) : List EmailNote :=
  effs.filterMap fun e =>
    match e with
    | .notify n => some n
    | _ => none

/-- The actor-run payload assembled by handleSuccessfulPayment:
totalRecords is parseInt of the recovered leads and cleanOutput is the
strict comparison of the recovered value against the true literal. -/
def mkInvocation (d : StoredData) (fileName : Str) : JobInvocation :=
  { url := d.apolloUrl
    totalRecords := parseIntJS d.leads
    fileName := fileName
    email := d.email
    cleanOutput := jsStrictEqTrue d.cleanOutput }

/-- The email-webhook payload (sendEmailWebhook arguments). -/
def mkNote (d : StoredData) (fileName : Str) : EmailNote :=
  { email := d.email
    leadCount := parseIntJS d.leads
    apolloUrl := d.apolloUrl
    fileName := fileName }

/-- sendEmailWebhook: skipped silently when no channel is configured;
its own failures are caught and never propagate. -/
def noteEffects (env : WebhookEnv) (d : StoredData) (fileName : Str) : List Effect :=
  match env.emailWebhookUrl with
  | none => []
  | some _ => [.notify (mkNote d fileName)]

/-- Order recovery: the staging store first; on a miss, the metadata
fallback, which aborts when leads or email is missing or empty, and
otherwise rebuilds the URL from the chunks, falling back to the truncated
copy when the count is absent or a chunk is missing. -/
def recoverOrder (st : Store) (session : Session) : Option StoredData :=
  match retrieveApolloUrl st session.id with
  | some d => some d
  | none =>
      match session.metadata.leads, session.metadata.email with
      | some leads, some email =>
          if leads.isEmpty || email.isEmpty then none
          else
            let fullApolloUrl : Str :=
              match reconstructUrl session.metadata with
              | some u => u
              | none => session.metadata.apolloUrl.getD []
            some { apolloUrl := fullApolloUrl
                   email := email
                   leads := .str leads
                   cleanOutput :=
                     match session.metadata.cleanOutput with
                     | some s => .str s
                     | none => .undef }
      | _, _ => none

/-- handleSuccessfulPayment: dedupe on the ledger, recover the order,
trigger the actor, notify, then delete the pending order and write the
ledger. `triggerOk` is whether the actor API call succeeds; when it fails
the function throws into its catch block, leaving both stores untouched.
`fileName` stands for the generated random file-name token. -/
def handleSuccessfulPayment (st : Store) (session : Session) (fileName : Str)
    (env : WebhookEnv) (triggerOk : Bool) : Store × List Effect :=
  if isSessionProcessed st session.id then
    (st, [.readLedger session.id])
  else
    match recoverOrder st session with
    | none => (st, [.readLedger session.id, .readStaging session.id])
    | some d =>
        let inv := mkInvocation d fileName
        if triggerOk then
          (markSessionProcessed (cleanupApolloUrl st session.id) session.id,
           [.readLedger session.id, .readStaging session.id, .jobTrigger inv]
             ++ noteEffects env d fileName
             ++ [.deleteStaging session.id, .writeLedger session.id])
        else
          (st, [.readLedger session.id, .readStaging session.id, .jobTrigger inv])

/-- The webhook HTTP response (status code). -/
structure WebhookResponse where
  status : Nat
deriving DecidableEq

/-- The full outcome of one webhook delivery. -/
structure HandlerOut where
  store : Store
  effects : List Effect
  response : WebhookResponse
deriving DecidableEq

/-- The webhook handler: method gate, signature verification gate, then
the event-type switch; only checkout.session.completed reaches
handleSuccessfulPayment, and every dispatched event is acknowledged 200. -/
def webhookHandler (st : Store) (req : WebhookRequest) (fileName : Str)
    (env : WebhookEnv) (triggerOk : Bool) : HandlerOut :=
  if req.method ≠ .POST then
    { store := st, effects := [], response := { status := 405 } }
  else
    match req.verified with
    | none => { store := st, effects := [], response := { status := 400 } }
    | some ev =>
        match ev.kind with
        | .checkoutSessionCompleted =>
            let r := handleSuccessfulPayment st ev.session fileName env triggerOk
            { store := r.1, effects := r.2, response := { status := 200 } }
        | _ => { store := st, effects := [], response := { status := 200 } }

/-! ## Config endpoint (the configuration surface) -/

/-- The process environment variables relevant to the repository; the
Stripe secret key and webhook signing secret are read elsewhere by the
core but live in the same environment. -/
structure ConfigEnv where
  APIFY_TOKEN : Option Str
  APOLLO_ACTOR_ID : Option Str
  EMAIL_WEBHOOK_URL : Option Str
  STRIPE_SECRET_KEY : Option Str
  STRIPE_WEBHOOK_SECRET : Option Str

/-- The default actor id literal in the config endpoint. -/
def defaultActorId : Str :=
  [99, 111, 100, 101, 95, 99, 114, 97, 102, 116, 101, 114, 47, 97, 112, 111,
   108, 108, 111, 45, 105, 111, 45, 115, 99, 114, 97, 112, 101, 114]

/-- The Apify API base URL literal in the config endpoint. -/
def apifyBaseUrl : Str :=
  [104, 116, 116, 112, 115, 58, 47, 47, 97, 112, 105, 46, 97, 112, 105, 102,
   121, 46, 99, 111, 109, 47, 118, 50]

/-- The DEFAULT_SETTINGS block of the config response. -/
structure DefaultSettings where
  maxLeads : Nat
  defaultLeads : Nat
  timeout : Nat
deriving DecidableEq

/-- The API block of the config response. -/
structure ApiSettings where
  baseUrl : Str
  timeout : Nat
deriving DecidableEq

/-- The SECURITY block of the config response. -/
structure SecuritySettings where
  allowedOrigins : List Str
  rateLimitPerMinute : Nat
deriving DecidableEq

/-- The JSON body the config endpoint returns on GET. -/
structure ConfigBody where
  APIFY_TOKEN : Str
  APOLLO_ACTOR_ID : Str
  EMAIL_WEBHOOK_URL : Str
  DEFAULT_SETTINGS : DefaultSettings
  API : ApiSettings
  SECURITY : SecuritySettings
deriving DecidableEq

/-- A config endpoint response: status plus the body on GET. -/
structure ConfigResponse where
  status : Nat
  body : Option ConfigBody
deriving DecidableEq

/-- The config endpoint handler: OPTIONS is acknowledged empty, GET serves
the config object (environment values with the source defaults), anything
else is rejected 405. -/
def configHandler (env : ConfigEnv) (method : Method) : ConfigResponse :=
  match method with
  | .OPTIONS => { status := 200, body := none }
  | .GET =>
      { status := 200
        body := some
          { APIFY_TOKEN := env.APIFY_TOKEN.getD []
            APOLLO_ACTOR_ID := env.APOLLO_ACTOR_ID.getD defaultActorId
            EMAIL_WEBHOOK_URL := env.EMAIL_WEBHOOK_URL.getD []
            DEFAULT_SETTINGS :=
              { maxLeads := 50000, defaultLeads := 100, timeout := 3600000 }
            API := { baseUrl := apifyBaseUrl, timeout := 30000 }
            SECURITY := { allowedOrigins := [[42]], rateLimitPerMinute := 10 } } }
  | _ => { status := 405, body := none }

/-! ## Result normalizer (cleanData in the scraper script) -/

/-- A JSON-like value as cleanData traverses it. -/
inductive JSData where
  | null
  | undef
  | str (s : Str)
  | num (n : Int)
  | bool (b : Bool)
  | arr (elems : List JSData)
  | obj (fields : List (Str × JSData))

/-- The filter cleanData applies: drop null, undefined and the empty
string. -/
def dropVal : JSData → Bool
  | .null => true
  | .undef => true
  | .str [] => true
  | _ => false

/-- One cleanData pass over the key/value pairs of an item: dropped
values vanish, nested objects are cleaned recursively and kept only if
something remains, arrays are filtered shallowly and kept only if
something remains, all other values are kept as is. -/
def cleanFields : List (Str × JSData) → List (Str × JSData)
  | [] => []
  | (k, v) :: rest =>
      if dropVal v then cleanFields rest
      else
        match v with
        | .obj fs =>
            let cleanedNested := cleanFields fs
            if cleanedNested.isEmpty then cleanFields rest
            else (k, .obj cleanedNested) :: cleanFields rest
        | .arr xs =>
            let cleanedArray := xs.filter (fun x => !dropVal x)
            if cleanedArray.isEmpty then cleanFields rest
            else (k, .arr cleanedArray) :: cleanFields rest
        | other => (k, other) :: cleanFields rest

/-- cleanData maps the per-item cleaning over the scraped items. -/
def cleanData (items : List (List (Str × JSData))) : List (List (Str × JSData)) :=
  items.map cleanFields

/-- The depth of the cleanData call tree on an item: 1 for the call
itself, plus nested calls for each kept object-valued field. This is the
recursion depth the source consumes on that input. -/
def cleanCallDepth : List (Str × JSData) → Nat
  | [] => 1
  | (_, v) :: rest =>
      if dropVal v then cleanCallDepth rest
      else
        match v with
        | .obj fs => max (1 + cleanCallDepth fs) (cleanCallDepth rest)
        | _ => cleanCallDepth rest

/-- An item whose sole field nests objects n levels deep. -/
def deepNest : Nat → List (Str × JSData)
  | 0 => [([97], .num 1)]
  | n + 1 => [([97], .obj (deepNest n))]

/-! ## Interleaving model of concurrent deliveries

Two in-flight executions of handleSuccessfulPayment for the same event
interleave at the await points of the source; each program-counter stage
below performs the storage access or network call of that stage. -/

/-- The stages of one in-flight handleSuccessfulPayment execution. -/
inductive ThreadPC where
  | checkLedger
  | recover
  | trigger
  | notifyStage
  | cleanupStage
  | markStage
  | finished
deriving DecidableEq

/-- One in-flight execution: its event, its generated file name, its
stage, and the order data it has recovered so far. -/
structure Thread where
  sess : Session
  fileName : Str
  pc : ThreadPC
  data : Option StoredData

/-- One atomic stage of an in-flight execution against the shared stores,
returning the new store, the advanced thread, and the effects performed. -/
def stepThread (env : WebhookEnv) (triggerOk : Bool) (st : Store) (t : Thread) :
    Store × Thread × List Effect :=
  match t.pc with
  | .checkLedger =>
      if isSessionProcessed st t.sess.id then
        (st, { t with pc := .finished }, [.readLedger t.sess.id])
      else
        (st, { t with pc := .recover }, [.readLedger t.sess.id])
  | .recover =>
      match recoverOrder st t.sess with
      | none => (st, { t with pc := .finished }, [.readStaging t.sess.id])
      | some d =>
          (st, { t with pc := .trigger, data := some d }, [.readStaging t.sess.id])
  | .trigger =>
      match t.data with
      | some d =>
          if triggerOk then
            (st, { t with pc := .notifyStage }, [.jobTrigger (mkInvocation d t.fileName)])
          else
            (st, { t with pc := .finished }, [.jobTrigger (mkInvocation d t.fileName)])
      | none => (st, { t with pc := .finished }, [])
  | .notifyStage =>
      match t.data with
      | some d => (st, { t with pc := .cleanupStage }, noteEffects env d t.fileName)
      | none => (st, { t with pc := .finished }, [])
  | .cleanupStage =>
      (cleanupApolloUrl st t.sess.id, { t with pc := .markStage }, [.deleteStaging t.sess.id])
  | .markStage =>
      (markSessionProcessed st t.sess.id, { t with pc := .finished }, [.writeLedger t.sess.id])
  | .finished => (st, t, [])

/-- Run two in-flight executions under a schedule: `true` steps the first
thread, `false` the second. Returns the accumulated effect trace. -/
def runSched (env : WebhookEnv) (triggerOk : Bool) :
    List Bool → Store → Thread → Thread → List Effect
  | [], _, _, _ => []
  | b :: bs, st, t1, t2 =>
      if b then
        let r := stepThread env triggerOk st t1
        r.2.2 ++ runSched env triggerOk bs r.1 r.2.1 t2
      else
        let r := stepThread env triggerOk st t2
        r.2.2 ++ runSched env triggerOk bs r.1 t1 r.2.1

/-! ## Shared concrete fixtures and small helper lemmas -/

/-- A sample session id. -/
def sidA : Str := [115, 49]

/-- A sample customer address. -/
def emailA : Str := [101, 64, 120]

/-- A sample destination URL (two characters). -/
def urlA : Str := [104, 105]

/-- A sample generated file name. -/
def fnA : Str := [70, 49]

/-- The empty store. -/
def emptyStore : Store := { staging := [], processed := [] }

/-- An environment with no notification channel. -/
def envNone : WebhookEnv := { emailWebhookUrl := none }

/-- An environment with a configured notification channel. -/
def envNotify : WebhookEnv := { emailWebhookUrl := some [110] }

/-- Metadata with every field absent. -/
def mdMissing : Metadata :=
  { leads := none, apolloUrl := none, email := none, cleanOutput := none,
    urlChunkCount := none, urlChunk := fun _ => none }

theorem contains_of_cons (a x : Str) (l : List Str) (h : l.contains x = true) :
    (a :: l).contains x = true := by
  simp only [List.contains_cons, Bool.or_eq_true]
  right
  exact h

theorem jobsOf_append (e1 e2 : List Effect) :
    jobsOf (e1 ++ e2) = jobsOf e1 ++ jobsOf e2 := by
  simp [jobsOf, List.filterMap_append]

theorem jobsOf_noteEffects (env : WebhookEnv) (d : StoredData) (fn : Str) :
    jobsOf (noteEffects env d fn) = [] := by
  unfold noteEffects
  match env.emailWebhookUrl with
  | none => rfl
  | some _ => rfl

/-! ## C1 — configuration surface and secrets -/

/-- A sample secret Apify token value found in the environment. -/
def tokenSecret : Str := [115, 107, 95, 49]

/-- An environment carrying secrets, including the Apify token. -/
def envC1 : ConfigEnv :=
  { APIFY_TOKEN := some tokenSecret
    APOLLO_ACTOR_ID := none
    EMAIL_WEBHOOK_URL := none
    STRIPE_SECRET_KEY := some [115, 107]
    STRIPE_WEBHOOK_SECRET := some [119, 104] }

/-- C1 counterexample: a GET to the config endpoint returns a body whose
APIFY_TOKEN field is exactly the (non-empty) secret token read from the
process environment, so the response does not contain only non-secret
defaults. -/
theorem config_get_returns_env_apify_token :
    ((configHandler envC1 .GET).body.map ConfigBody.APIFY_TOKEN) = some tokenSecret
    ∧ tokenSecret ≠ [] := by
  exact ⟨rfl, by decide⟩

/-- C1 (amended): the config GET response never depends on the Stripe
secret key or the webhook signing secret (they cannot appear in it), and
it always answers 200; but the body does expose the Apify token taken
verbatim from the process environment. -/
theorem config_independent_of_stripe_secrets :
    ∀ (env : ConfigEnv) (a b : Option Str),
      configHandler
          { env with STRIPE_SECRET_KEY := a, STRIPE_WEBHOOK_SECRET := b } .GET
        = configHandler env .GET
      ∧ (configHandler env .GET).status = 200
      ∧ ((configHandler env .GET).body.map ConfigBody.APIFY_TOKEN)
          = some (env.APIFY_TOKEN.getD []) := by
  intro env a b
  exact ⟨rfl, rfl, rfl⟩

/-! ## C2 — the cleanOutput flag across the two recovery paths -/

/-- A staged pending order in which the customer selected output cleaning:
the checkout endpoint stores the boolean true it received in the request
body. -/
def stagedCleanTrue : StoredData :=
  { apolloUrl := urlA, email := emailA, leads := .num 500, cleanOutput := .bool true }

/-- A session whose staging record exists (metadata is never consulted). -/
def sessStagedA : Session := { id := sidA, metadata := mdMissing }

/-- Metadata for the fallback path of the same order: cleanOutput was
serialized to the string true. -/
def mdCleanTrue : Metadata :=
  { leads := some [53, 48, 48]
    apolloUrl := some urlA
    email := some emailA
    cleanOutput := some trueLit
    urlChunkCount := none
    urlChunk := fun _ => none }

/-- A session recovered through the metadata fallback. -/
def sessMetaA : Session := { id := sidA, metadata := mdCleanTrue }

/-- C2: the flag the external job receives does NOT equal the customer's
selection on the staging path. The staging store holds the boolean true,
and the webhook computes cleanOutput with a strict string comparison, so
the triggered job gets false; the metadata fallback (string form) gets
true. Same order, same selection, different flag. -/
theorem cleanOutput_flag_lost_on_staging_path :
    (jobsOf (handleSuccessfulPayment (storeApolloUrl emptyStore sidA stagedCleanTrue)
        sessStagedA fnA envNone true).2).map JobInvocation.cleanOutput = [false]
    ∧ (jobsOf (handleSuccessfulPayment emptyStore sessMetaA fnA envNone true).2).map
        JobInvocation.cleanOutput = [true] := by
  exact ⟨by decide, by decide⟩

/-! ## C9 — the result normalizer has no recursion-depth cap -/

/-- C9: cleanData is a pure total function of its input in this model
(the identity of the cleaned value is fully determined, and the deep nest
passes through unchanged), but its recursion depth on a nest of depth n
is n + 1 for every n: there is no cap on recursion depth anywhere in the
source, so depth grows without bound with the input and cyclic input
would recurse forever. -/
theorem cleanData_depth_unbounded :
    ∀ n : Nat,
      cleanCallDepth (deepNest n) = n + 1
      ∧ cleanData [deepNest n] = [deepNest n] := by
  intro n
  induction n with
  | zero =>
      constructor
      · simp [deepNest, cleanCallDepth, dropVal]
      · simp [deepNest, cleanData, cleanFields, dropVal]
  | succ m ih =>
      obtain ⟨hdepth, hclean⟩ := ih
      have hne : deepNest m ≠ [] := by
        cases m <;> simp [deepNest]
      have hcleanFields : cleanFields (deepNest m) = deepNest m := by
        simpa [cleanData] using hclean
      constructor
      · show cleanCallDepth [([97], .obj (deepNest m))] = m + 2
        simp [cleanCallDepth, dropVal, hdepth]
        omega
      · show cleanData [[([97], .obj (deepNest m))]] = [[([97], .obj (deepNest m))]]
        simp only [cleanData, List.map_cons, List.map_nil, List.cons.injEq, and_true]
        simp only [cleanFields, dropVal]
        rw [hcleanFields]
        simp [List.isEmpty_iff, hne, cleanFields]

/-! ## C4 — failed signature verification is fail-closed -/

/-- C4: when constructEvent throws (signature mismatch, missing header or
malformed body), the webhook responds 400, the stores are untouched, and
the effect trace is empty: no storage read or write and no outbound call,
and the event never reaches handleSuccessfulPayment. -/
theorem unverified_event_rejected_without_effects
    (st : Store) (req : WebhookRequest) (fileName : Str) (env : WebhookEnv)
    (triggerOk : Bool) (hm : req.method = .POST) (hv : req.verified = none) :
    webhookHandler st req fileName env triggerOk
      = { store := st, effects := [], response := { status := 400 } } := by
  unfold webhookHandler
  rw [hm, hv]
  simp

theorem unverified_event_rejected_without_effects_check :
    webhookHandler emptyStore { method := .POST, verified := none } fnA envNone true
      = { store := emptyStore, effects := [], response := { status := 400 } } :=
  unverified_event_rejected_without_effects emptyStore
    { method := .POST, verified := none } fnA envNone true rfl rfl

/-! ## C5 — the idempotency ledger is a permanent one-way gate -/

/-- C5: once a session is marked processed, a verified
checkout.session.completed event for it produces only the ledger read —
no job trigger, no notification, no store change — and is still
acknowledged 200; and no webhook delivery ever removes a session from the
ledger (the gate is one-way and permanent). -/
theorem processed_session_is_permanent_gate :
    (∀ (st : Store) (ev : Event) (fileName : Str) (env : WebhookEnv) (triggerOk : Bool),
        ev.kind = .checkoutSessionCompleted →
        isSessionProcessed st ev.session.id = true →
        webhookHandler st { method := .POST, verified := some ev } fileName env triggerOk
          = { store := st, effects := [.readLedger ev.session.id],
              response := { status := 200 } })
    ∧ (∀ (st : Store) (req : WebhookRequest) (fileName : Str) (env : WebhookEnv)
          (triggerOk : Bool) (sid : Str),
        isSessionProcessed st sid = true →
        isSessionProcessed (webhookHandler st req fileName env triggerOk).store sid
          = true) := by
  constructor
  · intro st ev fileName env triggerOk hk hp
    unfold webhookHandler
    simp only [ne_eq, reduceCtorEq, not_false_eq_true, reduceIte]
    rw [hk]
    unfold handleSuccessfulPayment
    rw [hp]
    simp
  · intro st req fileName env triggerOk sid hp
    unfold webhookHandler
    by_cases hm : req.method = .POST
    · rw [hm]
      simp only [ne_eq, not_true_eq_false, reduceIte]
      match hv : req.verified with
      | none => exact hp
      | some ev =>
          match hk : ev.kind with
          | .paymentIntentSucceeded => simp only [hk]; exact hp
          | .paymentIntentFailed => simp only [hk]; exact hp
          | .otherEvent => simp only [hk]; exact hp
          | .checkoutSessionCompleted =>
              simp only [hk]
              show isSessionProcessed
                (handleSuccessfulPayment st ev.session fileName env triggerOk).1 sid = true
              unfold handleSuccessfulPayment
              by_cases hq : isSessionProcessed st ev.session.id = true
              · rw [hq]
                simpa using hp
              · rw [Bool.not_eq_true] at hq
                rw [hq]
                simp only [Bool.false_eq_true, reduceIte]
                match hr : recoverOrder st ev.session with
                | none => simp only [hr]; exact hp
                | some d =>
                    simp only [hr]
                    match triggerOk with
                    | false => exact hp
                    | true =>
                        show isSessionProcessed
                          (markSessionProcessed (cleanupApolloUrl st ev.session.id)
                            ev.session.id) sid = true
                        unfold isSessionProcessed markSessionProcessed cleanupApolloUrl
                        exact contains_of_cons _ _ _ hp
    · rw [if_pos hm]
      exact hp

theorem processed_session_is_permanent_gate_check :
    webhookHandler { staging := [], processed := [sidA] }
        { method := .POST,
          verified := some { kind := .checkoutSessionCompleted,
                             session := { id := sidA, metadata := mdMissing } } }
        fnA envNone true
      = { store := { staging := [], processed := [sidA] },
          effects := [.readLedger sidA], response := { status := 200 } }
    ∧ isSessionProcessed
        (webhookHandler { staging := [], processed := [sidA] }
          { method := .POST, verified := none } fnA envNone true).store sidA = true := by
  constructor
  · exact processed_session_is_permanent_gate.1
      { staging := [], processed := [sidA] }
      { kind := .checkoutSessionCompleted,
        session := { id := sidA, metadata := mdMissing } }
      fnA envNone true rfl (by decide)
  · exact processed_session_is_permanent_gate.2
      { staging := [], processed := [sidA] }
      { method := .POST, verified := none } fnA envNone true sidA (by decide)

/-! ## C7 — finalization only after a successful trigger -/

/-- True when the trace has no ledger write before its first job trigger:
the first ledger write, if any, comes after a job trigger was attempted. -/
def noMarkBeforeTrigger : List Effect → Bool
  | [] => true
  | .writeLedger _ :: _ => false
  | .jobTrigger _ :: _ => true
  | _ :: rest => noMarkBeforeTrigger rest

/-- C7: the ledger write never comes before the job trigger, it happens
only in runs whose trigger call succeeded, and when the trigger call
throws the stores are left untouched: the pending order is not deleted
and no ledger entry is written. -/
theorem mark_only_after_successful_trigger :
    ∀ (st : Store) (session : Session) (fileName : Str) (env : WebhookEnv)
      (triggerOk : Bool),
      noMarkBeforeTrigger (handleSuccessfulPayment st session fileName env triggerOk).2
        = true
      ∧ (Effect.writeLedger session.id
            ∈ (handleSuccessfulPayment st session fileName env triggerOk).2 →
          triggerOk = true)
      ∧ (triggerOk = false →
          (handleSuccessfulPayment st session fileName env triggerOk).1 = st
          ∧ Effect.writeLedger session.id
              ∉ (handleSuccessfulPayment st session fileName env triggerOk).2
          ∧ Effect.deleteStaging session.id
              ∉ (handleSuccessfulPayment st session fileName env triggerOk).2) := by
  intro st session fileName env triggerOk
  unfold handleSuccessfulPayment
  by_cases hq : isSessionProcessed st session.id = true
  · rw [hq]
    simp [noMarkBeforeTrigger]
  · rw [Bool.not_eq_true] at hq
    rw [hq]
    simp only [Bool.false_eq_true, reduceIte]
    match hr : recoverOrder st session with
    | none =>
        simp only [hr]
        simp [noMarkBeforeTrigger]
    | some d =>
        simp only [hr]
        match triggerOk with
        | true =>
            refine ⟨?_, fun _ => rfl, by simp⟩
            simp [noMarkBeforeTrigger]
        | false =>
            refine ⟨by simp [noMarkBeforeTrigger], ?_, ?_⟩
            · intro hmem
              simp at hmem
            · intro _
              refine ⟨rfl, by simp, by simp⟩

theorem mark_only_after_successful_trigger_check :
    (handleSuccessfulPayment (storeApolloUrl emptyStore sidA stagedCleanTrue)
        sessStagedA fnA envNone false).1
      = storeApolloUrl emptyStore sidA stagedCleanTrue
    ∧ Effect.writeLedger sidA
        ∈ (handleSuccessfulPayment (storeApolloUrl emptyStore sidA stagedCleanTrue)
            sessStagedA fnA envNone true).2 := by
  constructor
  · exact ((mark_only_after_successful_trigger
      (storeApolloUrl emptyStore sidA stagedCleanTrue) sessStagedA fnA envNone
      false).2.2 rfl).1
  · have h := (mark_only_after_successful_trigger
      (storeApolloUrl emptyStore sidA stagedCleanTrue) sessStagedA fnA envNone true).2.1
    decide

/-! ## C8 — recovery failure: abort, acknowledge, but no report -/

theorem recoverOrder_none_of_missing (st : Store) (s : Session)
    (hret : retrieveApolloUrl st s.id = none)
    (hmiss : s.metadata.leads = none ∨ s.metadata.leads = some [] ∨
      s.metadata.email = none ∨ s.metadata.email = some []) :
    recoverOrder st s = none := by
  unfold recoverOrder
  rw [hret]
  match hl : s.metadata.leads, he : s.metadata.email with
  | none, none => rfl
  | none, some e => rfl
  | some l, none => rfl
  | some l, some e =>
      have hle : l = [] ∨ e = [] := by
        rcases hmiss with h | h | h | h
        · exact absurd (h.symm.trans hl) (by simp)
        · have h2 := h.symm.trans hl
          simp only [Option.some.injEq] at h2
          exact Or.inl h2.symm
        · exact absurd (h.symm.trans he) (by simp)
        · have h2 := h.symm.trans he
          simp only [Option.some.injEq] at h2
          exact Or.inr h2.symm
      rcases hle with h2 | h2 <;> subst h2 <;> simp

/-- C8 (amended): when the staging store misses and the event metadata
lacks leads or email, the webhook aborts with no job trigger, leaves both
stores unchanged, and still acknowledges 200 — but it sends nothing to
the notification channel, even when one is configured; the only effects
are the two reads. -/
theorem missing_metadata_aborts_and_acknowledges :
    ∀ (st : Store) (s : Session) (fileName : Str) (env : WebhookEnv) (triggerOk : Bool),
      isSessionProcessed st s.id = false →
      retrieveApolloUrl st s.id = none →
      (s.metadata.leads = none ∨ s.metadata.leads = some [] ∨
        s.metadata.email = none ∨ s.metadata.email = some []) →
      webhookHandler st
          { method := .POST,
            verified := some { kind := .checkoutSessionCompleted, session := s } }
          fileName env triggerOk
        = { store := st, effects := [.readLedger s.id, .readStaging s.id],
            response := { status := 200 } } := by
  intro st s fileName env triggerOk hq hret hmiss
  unfold webhookHandler
  simp only [ne_eq, reduceCtorEq, not_false_eq_true, reduceIte]
  unfold handleSuccessfulPayment
  rw [hq]
  simp only [Bool.false_eq_true, reduceIte]
  rw [recoverOrder_none_of_missing st s hret hmiss]
  simp

/-- A session whose metadata is missing the required leads field while a
notification channel is configured. -/
def sessNoLeads : Session :=
  { id := sidA
    metadata :=
      { leads := none, apolloUrl := some urlA, email := some emailA,
        cleanOutput := none, urlChunkCount := none, urlChunk := fun _ => none } }

/-- C8 counterexample: with a configured notification channel and an event
whose metadata lacks leads, the webhook aborts and acknowledges 200 but
performs only the two reads — in particular it sends no failure report to
the configured channel, contradicting the reports-the-failure clause. -/
theorem missing_metadata_sends_no_report :
    webhookHandler emptyStore
        { method := .POST,
          verified := some { kind := .checkoutSessionCompleted, session := sessNoLeads } }
        fnA envNotify true
      = { store := emptyStore, effects := [.readLedger sidA, .readStaging sidA],
          response := { status := 200 } }
    ∧ envNotify.emailWebhookUrl.isSome = true := by
  exact ⟨by decide, rfl⟩

theorem missing_metadata_aborts_and_acknowledges_check :
    webhookHandler emptyStore
        { method := .POST,
          verified := some { kind := .checkoutSessionCompleted, session := sessNoLeads } }
        [70, 51] envNone false
      = { store := emptyStore, effects := [.readLedger sidA, .readStaging sidA],
          response := { status := 200 } } :=
  missing_metadata_aborts_and_acknowledges emptyStore sessNoLeads [70, 51] envNone false
    (by decide) (by decide) (Or.inl rfl)

/-! ## C3 — chunk encode / decode round-trip -/

/-- C3: for any URL (byte string), the checkout metadata carries base64
chunks of at most 450 characters each, and the webhook reconstruction
(concatenate urlChunk 0 .. urlChunk (count-1) in index order, then base64
decode) returns exactly the original URL: the chunk sequence loses no
information. -/
theorem url_chunk_roundtrip (url : Str) (h : ∀ b ∈ url, b < 256)
    (leads : Nat) (email : Str) (cleanOutput : Bool) :
    reconstructUrl (checkoutMetadata leads url email cleanOutput) = some url
    ∧ ∀ c ∈ chunk450 (b64EncodeStr url), c.length ≤ 450 := by
  constructor
  · have hcount : (checkoutMetadata leads url email cleanOutput).urlChunkCount
        = some (chunk450 (b64EncodeStr url)).length := rfl
    have hchunk : (checkoutMetadata leads url email cleanOutput).urlChunk
        = fun i => (chunk450 (b64EncodeStr url)).get? i := rfl
    unfold reconstructUrl
    rw [hcount]
    show Option.map b64DecodeStr
        (collectB64 (checkoutMetadata leads url email cleanOutput)
          (chunk450 (b64EncodeStr url)).length)
      = some url
    rw [collectB64_get? (chunk450 (b64EncodeStr url)) _ hchunk _ le_rfl]
    rw [List.take_length, chunk450_flatten]
    simp [b64DecodeStr_b64EncodeStr url h]
  · exact chunk450_len _

theorem url_chunk_roundtrip_check :
    (∀ b ∈ urlA, b < 256)
    ∧ reconstructUrl (checkoutMetadata 500 urlA emailA true) = some urlA :=
  ⟨by decide, (url_chunk_roundtrip urlA (by decide) 500 emailA true).1⟩

/-! ## C6 — fallback fulfillment uses the reconstructed URL -/

/-- C6: on a verified payment-completed event with no staged pending
order but complete metadata (chunk count present, every indexed chunk
present, leads and email present and non-empty), the pipeline performs
exactly one job invocation and its destination URL is the base64 decode
of the reassembled chunks — not the truncated metadata copy. -/
theorem fallback_triggers_once_with_reconstructed_url :
    ∀ (st : Store) (s : Session) (fileName : Str) (env : WebhookEnv)
      (triggerOk : Bool) (n : Nat) (cs l e : Str),
      isSessionProcessed st s.id = false →
      retrieveApolloUrl st s.id = none →
      s.metadata.leads = some l → l ≠ [] →
      s.metadata.email = some e → e ≠ [] →
      s.metadata.urlChunkCount = some n →
      collectB64 s.metadata n = some cs →
      (jobsOf (handleSuccessfulPayment st s fileName env triggerOk).2).map
          JobInvocation.url = [b64DecodeStr cs] := by
  intro st s fileName env triggerOk n cs l e hq hret hl hlne he hene hn hcs
  have hlempty : l.isEmpty = false := by
    cases l with
    | nil => exact absurd rfl hlne
    | cons a as => rfl
  have heempty : e.isEmpty = false := by
    cases e with
    | nil => exact absurd rfl hene
    | cons a as => rfl
  have hrec : recoverOrder st s = some
      { apolloUrl := b64DecodeStr cs, email := e, leads := .str l,
        cleanOutput :=
          match s.metadata.cleanOutput with
          | some str => .str str
          | none => .undef } := by
    have hru : reconstructUrl s.metadata = some (b64DecodeStr cs) := by
      unfold reconstructUrl
      rw [hn]
      show (collectB64 s.metadata n).map b64DecodeStr = some (b64DecodeStr cs)
      rw [hcs]
      rfl
    unfold recoverOrder
    rw [hret, hl, he]
    simp only [hlempty, heempty, Bool.or_false, Bool.false_eq_true, reduceIte, hru]
  unfold handleSuccessfulPayment
  rw [hq]
  simp only [Bool.false_eq_true, reduceIte]
  rw [hrec]
  match triggerOk with
  | true =>
      simp only [reduceIte]
      rw [jobsOf_append, jobsOf_append, jobsOf_noteEffects]
      simp [jobsOf, mkInvocation]
  | false =>
      simp only [Bool.false_eq_true, reduceIte]
      simp [jobsOf, mkInvocation]

/-- Metadata whose single chunk is the base64 encoding of the sample URL
(the text aGk=). -/
def mdOneChunk : Metadata :=
  { leads := some [53, 48, 48]
    apolloUrl := some [120]
    email := some emailA
    cleanOutput := none
    urlChunkCount := some 1
    urlChunk := fun i => if i = 0 then some [97, 71, 107, 61] else none }

/-- A session recovered entirely from the one-chunk metadata. -/
def sessOneChunk : Session := { id := sidA, metadata := mdOneChunk }

theorem fallback_triggers_once_with_reconstructed_url_check :
    collectB64 mdOneChunk 1 = some [97, 71, 107, 61]
    ∧ (jobsOf (handleSuccessfulPayment emptyStore sessOneChunk fnA envNotify true).2).map
        JobInvocation.url = [b64DecodeStr [97, 71, 107, 61]] :=
  ⟨by decide,
    fallback_triggers_once_with_reconstructed_url emptyStore sessOneChunk fnA envNotify
      true 1 [97, 71, 107, 61] [53, 48, 48] emailA (by decide) (by decide) rfl
      (by decide) rfl (by decide) rfl (by decide)⟩

/-! ## C10 — concurrent deliveries of the same event -/

/-- A first in-flight delivery of the payment event for the staged order. -/
def threadOne : Thread :=
  { sess := sessStagedA, fileName := fnA, pc := .checkLedger, data := none }

/-- A second in-flight delivery of the identical event (its own random
file name). -/
def threadTwo : Thread :=
  { sess := sessStagedA, fileName := [70, 50], pc := .checkLedger, data := none }

/-- The interleaving in which the first delivery has passed the ledger
check and started its trigger call (and so is parked at an await point)
when the second delivery runs to completion, after which the first one
resumes. -/
def raceSchedule : List Bool :=
  [true, true, true, false, false, false, false, false, false, true, true, true]

/-- C10 counterexample: two concurrent deliveries of the identical
payment-completed event for one session, interleaved at the await points
of the source, produce TWO job triggers: both pass the ledger check
before either writes the ledger, so the check does not prevent the
second invocation. -/
theorem concurrent_deliveries_trigger_twice :
    (jobsOf (runSched envNone true raceSchedule
        (storeApolloUrl emptyStore sidA stagedCleanTrue) threadOne threadTwo)).length
      = 2 := by
  decide

/-- C10 (amended): when the two deliveries are processed one after the
other — the second starting only after the first has finalized — the
ledger check stops the second one and exactly one job trigger occurs.
Under true interleaving both deliveries can pass the check first, and two
triggers are possible (see the counterexample). -/
theorem sequential_deliveries_trigger_once :
    ∀ (st : Store) (s : Session) (fn1 fn2 : Str) (env : WebhookEnv) (d : StoredData),
      isSessionProcessed st s.id = false →
      recoverOrder st s = some d →
      (jobsOf ((handleSuccessfulPayment st s fn1 env true).2
          ++ (handleSuccessfulPayment
                (handleSuccessfulPayment st s fn1 env true).1 s fn2 env true).2)).length
        = 1 := by
  intro st s fn1 fn2 env d hq hrec
  have hfirst : handleSuccessfulPayment st s fn1 env true
      = (markSessionProcessed (cleanupApolloUrl st s.id) s.id,
         [.readLedger s.id, .readStaging s.id, .jobTrigger (mkInvocation d fn1)]
           ++ noteEffects env d fn1
           ++ [.deleteStaging s.id, .writeLedger s.id]) := by
    unfold handleSuccessfulPayment
    rw [hq]
    simp only [Bool.false_eq_true, reduceIte]
    rw [hrec]
  have hmarked : isSessionProcessed
      (markSessionProcessed (cleanupApolloUrl st s.id) s.id) s.id = true := by
    unfold isSessionProcessed markSessionProcessed cleanupApolloUrl
    simp [List.contains_cons]
  have hsecond : handleSuccessfulPayment
      (markSessionProcessed (cleanupApolloUrl st s.id) s.id) s fn2 env true
      = (markSessionProcessed (cleanupApolloUrl st s.id) s.id, [.readLedger s.id]) := by
    unfold handleSuccessfulPayment
    rw [hmarked]
    simp
  rw [hfirst]
  simp only []
  rw [hsecond]
  rw [jobsOf_append, jobsOf_append, jobsOf_append, jobsOf_noteEffects]
  simp [jobsOf]

theorem sequential_deliveries_trigger_once_check :
    (jobsOf ((handleSuccessfulPayment (storeApolloUrl emptyStore sidA stagedCleanTrue)
          sessStagedA fnA envNone true).2
        ++ (handleSuccessfulPayment
              (handleSuccessfulPayment (storeApolloUrl emptyStore sidA stagedCleanTrue)
                sessStagedA fnA envNone true).1
              sessStagedA [70, 50] envNone true).2)).length
      = 1 :=
  sequential_deliveries_trigger_once (storeApolloUrl emptyStore sidA stagedCleanTrue)
    sessStagedA fnA [70, 50] envNone stagedCleanTrue (by decide) (by decide)
